import Mathlib

/-!
Shallow embedding of the Omega real-time collaboration server
(backend/api/websocket.py, backend/models/messages.py,
backend/services/redis_service.py, backend/services/auth.py).

Python dictionaries are modelled as insertion-ordered association lists
(CPython dicts preserve insertion order, which the source relies on when
it iterates `session_users` in `detect_conflict`).  Floats are modelled
as exact rationals; every numeric literal of the source is an exact
decimal, so no rounding questions arise for the properties below.
Wall-clock instants (`datetime.utcnow()`) are threaded explicitly as a
rational number of seconds.  WebSocket handles are natural numbers.
-/

/-- `aget l k` — dictionary lookup: the value of the first binding of `k`. -/
def aget {K V : Type} [DecidableEq K] : List (K × V) → K → Option V
  | [], _ => none
  | (k', v) :: t, k => if k' = k then some v else aget t k

/-- `aset l k v` — dictionary assignment: update the binding of `k` in place
(keeping its position, as a CPython dict does), or append it at the end. -/
def aset {K V : Type} [DecidableEq K] : List (K × V) → K → V → List (K × V)
  | [], k, v => [(k, v)]
  | (k', v') :: t, k, v => if k' = k then (k, v) :: t else (k', v') :: aset t k v

/-- `aerase l k` — dictionary deletion (`del d[k]` / `d.pop(k)`). -/
def aerase {K V : Type} [DecidableEq K] (l : List (K × V)) (k : K) : List (K × V) :=
  l.filter (fun p => p.1 ≠ k)

/-- Pydantic model `SessionState` (models/messages.py).  The three primaries
default to the declared values; `beta` defaults to `None` and is only set by
`compute_beta`.  The `Field(ge=…, le=…)` bounds are enforced by pydantic on
construction only; plain attribute assignment (as `ConnectionManager.broadcast`
performs) is not validated, which the embedding mirrors by having `setattrF`
store any value. -/
structure SessionState where
  mu : ℚ := 0.569
  omega : ℚ := 0.847
  kappa : ℚ := 0.0207
  beta : Option ℚ := none
deriving DecidableEq

/-- The constant `c = 10.8` of `compute_beta`. -/
def betaConst : ℚ := 10.8

/-- `SessionState.compute_beta`: `self.beta = 1 - self.mu - self.kappa * c`. -/
def SessionState.compute_beta (s : SessionState) : SessionState :=
  { s with beta := some (1 - s.mu - s.kappa * betaConst) }

/-- The declared model fields — the keys on which the guarded `setattr` of
`broadcast` succeeds.  Python's `hasattr(state, k)` is also true on non-field
attribute names (the declared method `compute_beta`, pydantic `BaseModel` API
such as `dict`), where the guarded `setattr` raises instead of assigning;
that full attribute surface is modelled by the oracle argument of
`applyLoopPy`/`Manager.broadcastPy` below, and the raising path by their
`Except` error case. -/
def SessionState.hasattrF (k : String) : Bool :=
  k == "mu" || k == "omega" || k == "kappa" || k == "beta"

/-- `getattr(state, k, None)`. -/
def SessionState.getattrF (s : SessionState) (k : String) : Option ℚ :=
  if k = "mu" then some s.mu
  else if k = "omega" then some s.omega
  else if k = "kappa" then some s.kappa
  else if k = "beta" then s.beta
  else none

/-- `setattr(state, k, v)` for a field key (no pydantic validation on
assignment — `validate_assignment` is off, the source default). -/
def SessionState.setattrF (s : SessionState) (k : String) (v : ℚ) : SessionState :=
  if k = "mu" then { s with mu := v }
  else if k = "omega" then { s with omega := v }
  else if k = "kappa" then { s with kappa := v }
  else if k = "beta" then { s with beta := some v }
  else s

/-- Pydantic model `User` (models/messages.py). -/
structure User where
  id : String
  name : String
  avatar : Option String := none
  color : Option String := none
deriving DecidableEq

/-- The conflict descriptor built by `ConnectionManager.detect_conflict`. -/
structure Conflict where
  param : String
  yourValue : ℚ
  theirValue : ℚ
  theirUserId : String
  theirUserName : String
deriving DecidableEq

/-- The JSON snapshot written by `RedisService.save_session_state`:
`{**state.dict(), 'seq': seq, 'updated_at': …}`.  `updated_at` is ignored on
load (`connect` filters it out) and is omitted here. -/
structure Snapshot where
  mu : ℚ
  omega : ℚ
  kappa : ℚ
  beta : Option ℚ
  seq : ℕ
deriving DecidableEq

/-- One entry of `session:{id}:history` (RedisService.add_to_history). -/
structure HistoryEvent where
  seq : ℕ
  user_id : String
  params : List (String × ℚ)
  timestamp : ℚ
deriving DecidableEq

/-- The Redis façade (services/redis_service.py).  When `enabled = false`
every operation is a no-op / neutral result, exactly as the source's
`is_enabled()` guards behave. -/
structure Store where
  enabled : Bool
  states : List (String × Snapshot)
  history : List (String × List HistoryEvent)
  users : List (String × List (String × User))
deriving DecidableEq

/-- `RedisService.save_session_state` (the separate `session:{id}:seq` scalar
always equals the snapshot's `seq` field and is merged into it here). -/
def Store.save_session_state (st : Store) (sid : String) (s : SessionState) (seq : ℕ) : Store :=
  if st.enabled then
    { st with states := aset st.states sid ⟨s.mu, s.omega, s.kappa, s.beta, seq⟩ }
  else st

/-- `RedisService.load_session_state`. -/
def Store.load_session_state (st : Store) (sid : String) : Option Snapshot :=
  if st.enabled then aget st.states sid else none

/-- The `zremrangebyrank key 0 -1001` trim: keep at most the last 1000 events. -/
def histTrim (l : List HistoryEvent) : List HistoryEvent :=
  if l.length > 1000 then l.drop (l.length - 1000) else l

/-- `RedisService.add_to_history`: append the event keyed by `seq`, trim to
the last 1000. -/
def Store.add_to_history (st : Store) (sid uid : String) (ps : List (String × ℚ))
    (seq : ℕ) (now : ℚ) : Store :=
  if st.enabled then
    let evs := histTrim (((aget st.history sid).getD []) ++ [⟨seq, uid, ps, now⟩])
    { st with history := aset st.history sid evs }
  else st

/-- `RedisService.add_user_to_session` (the reverse `user:{id}:sessions` index
is not read by any claim and is omitted). -/
def Store.add_user_to_session (st : Store) (sid uid : String) (u : User) : Store :=
  if st.enabled then
    { st with users := aset st.users sid (aset ((aget st.users sid).getD []) uid u) }
  else st

/-- The six dictionaries of `ConnectionManager.__init__`. -/
structure Manager where
  active_connections : List (String × List ℕ)
  session_seq : List (String × ℕ)
  session_state : List (String × SessionState)
  session_users : List (String × List (String × User))
  ws_to_user : List (ℕ × String)
  last_update_time : List (String × List (String × ℚ))
deriving DecidableEq

/-- A freshly constructed `ConnectionManager`. -/
def Manager.empty : Manager := ⟨[], [], [], [], [], []⟩

/-- Python `set.add` on the connection set (modelled as an ordered list
without duplicates). -/
def addConn (l : List ℕ) (ws : ℕ) : List ℕ :=
  if l.contains ws then l else l ++ [ws]

/-- `ConnectionManager.connect`: initialize the session dictionaries on the
first connection of a session id — restoring `seq` and the state from a Redis
snapshot when one exists — and add the websocket to the connection set.
(Pydantic additionally bounds-checks the snapshot on construction; an
out-of-bounds snapshot raises and drops the connection, a path no claim
exercises and not modelled.) -/
def Manager.connect (m : Manager) (store : Store) (ws : ℕ) (sid : String) : Manager :=
  let m1 :=
    if (aget m.active_connections sid).isSome then m
    else
      match store.load_session_state sid with
      | some sn =>
          { m with
            active_connections := aset m.active_connections sid [],
            session_seq := aset m.session_seq sid sn.seq,
            session_state := aset m.session_state sid ⟨sn.mu, sn.omega, sn.kappa, sn.beta⟩,
            session_users := aset m.session_users sid [],
            last_update_time := aset m.last_update_time sid [] }
      | none =>
          { m with
            active_connections := aset m.active_connections sid [],
            session_seq := aset m.session_seq sid 0,
            session_state := aset m.session_state sid {},
            session_users := aset m.session_users sid [],
            last_update_time := aset m.last_update_time sid [] }
  let conns := addConn ((aget m1.active_connections sid).getD []) ws
  { m1 with active_connections := aset m1.active_connections sid conns }

/-- `ConnectionManager.disconnect`: drop the websocket, remove its user
mapping and roster entry, and tear down all per-session structures when the
connection set becomes empty. -/
def Manager.disconnect (m : Manager) (ws : ℕ) (sid : String) : Manager :=
  match aget m.active_connections sid with
  | none => m
  | some conns =>
    let conns' := conns.filter (fun w => w ≠ ws)
    let m1 := { m with active_connections := aset m.active_connections sid conns' }
    let m2 :=
      match aget m1.ws_to_user ws with
      | some uid =>
        let mA := { m1 with ws_to_user := aerase m1.ws_to_user ws }
        match aget mA.session_users sid with
        | some us =>
          if (aget us uid).isSome then
            { mA with session_users := aset mA.session_users sid (aerase us uid) }
          else mA
        | none => mA
      | none => m1
    if conns'.isEmpty then
      { m2 with
        active_connections := aerase m2.active_connections sid,
        session_seq := aerase m2.session_seq sid,
        session_state := aerase m2.session_state sid,
        session_users := aerase m2.session_users sid,
        last_update_time := aerase m2.last_update_time sid }
    else m2

/-- The `payload` of a server→client frame, one constructor per payload shape
the endpoint actually builds. -/
inductive Payload where
  | paramsP (userId : String) (params : List (String × ℚ))
  | userP (u : User)
  | userIdP (uid : String)
  | conflictP (c : Conflict)
  | stateP (params : SessionState) (seq : ℕ)
  | authSuccessP (sessionId : String) (userId : String) (users : List User)
      (currentState : SessionState × ℕ)
  | errorP (msg : String)
  | emptyP
deriving DecidableEq

/-- A server→client JSON frame: `type`, `payload`, and the `seq`/`timestamp`
keys that `ConnectionManager.broadcast` adds in place. -/
structure OutMsg where
  type : String
  payload : Payload
  seq : Option ℕ := none
  timestamp : Option ℚ := none
deriving DecidableEq

/-- The parameter-application loop of `ConnectionManager.broadcast`: for each
key of the payload's params, if the key is a `SessionState` field, assign it
and stamp `last_update_time[key] = now`.  Returns the updated state and
last-update dictionary. -/
def applyLoop (st : SessionState) (lut : List (String × ℚ)) :
    List (String × ℚ) → ℚ → SessionState × List (String × ℚ)
  | [], _ => (st, lut)
  | (k, v) :: rest, now =>
      if SessionState.hasattrF k then applyLoop (st.setattrF k v) (aset lut k now) rest now
      else applyLoop st lut rest now

/-- The state-update block of `ConnectionManager.broadcast`: when the frame is
a `param:broadcast`, apply its params to the session state, recompute `beta`,
write the snapshot through to Redis and append the history event. -/
def Manager.applyBroadcastState (m : Manager) (store : Store) (sid : String)
    (msg : OutMsg) (seq' : ℕ) (now : ℚ) : Manager × Store :=
  if msg.type = "param:broadcast" then
    match msg.payload with
    | .paramsP uid ps =>
        let st0 := (aget m.session_state sid).getD {}
        let lut0 := (aget m.last_update_time sid).getD []
        let stLut := applyLoop st0 lut0 ps now
        let st2 := stLut.1.compute_beta
        let m2 := { m with
          session_state := aset m.session_state sid st2,
          last_update_time := aset m.last_update_time sid stLut.2 }
        let store2 := (store.save_session_state sid st2 seq').add_to_history sid uid ps seq' now
        (m2, store2)
    | _ => (m, store)
  else (m, store)

/-- `ConnectionManager.broadcast`: a no-op when the session has no live
connections; otherwise bump the session's sequence counter, stamp `seq` and
`timestamp` onto the frame, apply/persist a `param:broadcast`'s params, and
send the frame to every connection of the session except `exclude`.  Returns
the new manager, the new store, and the `(recipient, frame)` sends.  (Send
failures marking peers dead are not modelled: all sends succeed.) -/
def Manager.broadcast (m : Manager) (store : Store) (sid : String) (msg : OutMsg)
    (exclude : Option ℕ) (now : ℚ) : Manager × Store × List (ℕ × OutMsg) :=
  match aget m.active_connections sid with
  | none => (m, store, [])
  | some conns =>
    let seq' := (aget m.session_seq sid).getD 0 + 1
    let m1 := { m with session_seq := aset m.session_seq sid seq' }
    let msg1 := { msg with seq := some seq', timestamp := some now }
    let ms := m1.applyBroadcastState store sid msg1 seq' now
    (ms.1, ms.2, (conns.filter (fun w => decide (some w ≠ exclude))).map (fun w => (w, msg1)))

/-- `ConnectionManager.get_session_state` (used for resync and auth:success). -/
def Manager.get_session_state (m : Manager) (sid : String) : SessionState × ℕ :=
  match aget m.session_state sid with
  | none => ({}, 0)
  | some st => (st, (aget m.session_seq sid).getD 0)

/-- `ConnectionManager.get_session_users`. -/
def Manager.get_session_users (m : Manager) (sid : String) : List User :=
  ((aget m.session_users sid).getD []).map Prod.snd

/-- `ConnectionManager.add_user`. -/
def Manager.add_user (m : Manager) (store : Store) (ws : ℕ) (sid : String) (u : User) :
    Manager × Store :=
  let us := (aget m.session_users sid).getD []
  let m1 := { m with
    session_users := aset m.session_users sid (aset us u.id u),
    ws_to_user := aset m.ws_to_user ws u.id }
  (m1, store.add_user_to_session sid u.id u)

/-- The `for uid, user in session_users: if uid != user_id: … break` loop of
`detect_conflict`: the first roster entry whose key differs from `user_id`. -/
def firstOther (uid : String) : List (String × User) → Option User
  | [] => none
  | (k, u) :: rest => if k ≠ uid then some u else firstOther uid rest

/-- `ConnectionManager.detect_conflict`: a conflict is reported when the
parameter has a recorded last-update instant within the last 500 ms and the
currently stored value differs from the proposal by more than 1e-3.  The
"conflicting user" is simply the first *other* user in the session roster
(the source does not record who actually made the last update). -/
def Manager.detect_conflict (m : Manager) (sid param : String) (new_value : ℚ)
    (user_id : String) (now : ℚ) : Option Conflict :=
  match aget m.last_update_time sid with
  | none => none
  | some lut =>
    match aget lut param with
    | none => none
    | some lastT =>
      if now - lastT < 0.5 then
        match ((aget m.session_state sid).getD {}).getattrF param with
        | some cv =>
          if |cv - new_value| > 0.001 then
            let cu := firstOther user_id ((aget m.session_users sid).getD [])
            some ⟨param, new_value, cv, (cu.map User.id).getD "unknown",
                  (cu.map User.name).getD "Another user"⟩
          else none
        | none => none
      else none

/-- `TokenData` (services/auth.py). -/
structure TokenData where
  user_id : String
  username : String
  email : Option String := none
  is_anonymous : Bool := false
  exp : ℚ
deriving DecidableEq

/-- `AuthService` configuration (secret and lifetime in hours). -/
structure AuthConfig where
  secret_key : String
  expiration_hours : ℕ
deriving DecidableEq

/-- An encoded JWT, modelled abstractly: the claims of the payload plus the
secret under which the HMAC was computed (`mac`).  Decoding under a secret
succeeds exactly when the secrets agree — the defining property of the
signature check — and enforces `exp` against the supplied clock. -/
structure Jwt where
  user_id : String
  username : String
  email : Option String
  is_anonymous : Bool
  exp : ℚ
  iat : ℚ
  mac : String
deriving DecidableEq

/-- `AuthService.create_token`: payload carries the identity claims,
`exp = now + expiration_hours`, `iat = now`; signed with the service secret. -/
def create_token (cfg : AuthConfig) (now : ℚ) (user_id username : String)
    (email : Option String) (is_anonymous : Bool) : Jwt :=
  ⟨user_id, username, email, is_anonymous,
   now + (cfg.expiration_hours : ℚ) * 3600, now, cfg.secret_key⟩

/-- `AuthService.verify_token`: decode succeeds when the signature matches the
service secret and the token has not expired, returning the identity claims;
otherwise `None` (the source logs and returns `None` on both error paths). -/
def verify_token (cfg : AuthConfig) (now : ℚ) (t : Jwt) : Option TokenData :=
  if t.mac = cfg.secret_key ∧ now < t.exp then
    some ⟨t.user_id, t.username, t.email, t.is_anonymous, t.exp⟩
  else none

/-- A client→server frame, one constructor per message type the endpoint's
dispatch handles (unknown types are ignored and need no constructor). -/
inductive ClientMsg where
  | auth (token : Option Jwt) (color : Option String)
  | paramUpdate (params : List (String × ℚ))
  | conflictResolved (param : String) (resolvedValue : ℚ)
  | resync (lastSeenSeq : ℕ)
  | ping
deriving DecidableEq

/-- The whole server: auth configuration, the global `ConnectionManager`, the
Redis store, the per-connection `user_id` locals of every live
`websocket_endpoint` task (`authed`), and the accumulated `(recipient, frame)`
log of every frame sent so far. -/
structure Sys where
  cfg : AuthConfig
  mgr : Manager
  store : Store
  authed : List (ℕ × String)
  log : List (ℕ × OutMsg)
deriving DecidableEq

/-- The message-dispatch loop body of `websocket_endpoint` for one inbound
frame from connection `ws` of session `sid` at instant `now`. -/
def handleMessage (sys : Sys) (ws : ℕ) (sid : String) (msg : ClientMsg) (now : ℚ) : Sys :=
  match msg with
  | .auth tok color =>
    let td := match tok with
      | some t => verify_token sys.cfg now t
      | none => none
    match td with
    | none =>
        { sys with log := sys.log ++
            [(ws, ⟨"auth:failed", .errorP "Invalid or missing authentication token", none, none⟩)] }
    | some d =>
        let user : User := ⟨d.user_id, d.username, none,
          some (color.getD (if d.is_anonymous then "#8b5cf6" else "#06b6d4"))⟩
        let ms := sys.mgr.add_user sys.store ws sid user
        let cur := ms.1.get_session_state sid
        let okMsg : OutMsg :=
          ⟨"auth:success", .authSuccessP sid d.user_id (ms.1.get_session_users sid) cur, none, none⟩
        let r := ms.1.broadcast ms.2 sid ⟨"session:joined", .userP user, none, none⟩ (some ws) now
        { sys with
          mgr := r.1,
          store := r.2.1,
          authed := aset sys.authed ws d.user_id,
          log := (sys.log ++ [(ws, okMsg)]) ++ r.2.2 }
  | .paramUpdate params =>
    match aget sys.authed ws with
    | none => sys
    | some uid =>
      let conflicts := params.filterMap (fun kv => sys.mgr.detect_conflict sid kv.1 kv.2 uid now)
      if conflicts.isEmpty then
        let r := sys.mgr.broadcast sys.store sid
          ⟨"param:broadcast", .paramsP uid params, none, none⟩ (some ws) now
        { sys with mgr := r.1, store := r.2.1, log := sys.log ++ r.2.2 }
      else
        { sys with log := sys.log ++
            conflicts.map (fun c => (ws, ⟨"conflict:detected", .conflictP c, none, none⟩)) }
  | .conflictResolved p v =>
    match aget sys.authed ws with
    | none => sys
    | some uid =>
      let r := sys.mgr.broadcast sys.store sid
        ⟨"param:broadcast", .paramsP uid [(p, v)], none, none⟩ (some ws) now
      { sys with mgr := r.1, store := r.2.1, log := sys.log ++ r.2.2 }
  | .resync _ =>
    let cur := sys.mgr.get_session_state sid
    { sys with log := sys.log ++ [(ws, ⟨"session:state", .stateP cur.1 cur.2, none, none⟩)] }
  | .ping =>
    { sys with log := sys.log ++ [(ws, ⟨"pong", .emptyP, none, none⟩)] }

/-- The `finally` block of `websocket_endpoint`: disconnect, and if the
connection had authenticated, broadcast `session:left` (with no exclusion) to
whatever remains of the session.  The per-connection `user_id` local dies with
the task, so `ws` is dropped from `authed`. -/
def onDisconnect (sys : Sys) (ws : ℕ) (sid : String) (now : ℚ) : Sys :=
  let m1 := sys.mgr.disconnect ws sid
  match aget sys.authed ws with
  | some uid =>
      let r := m1.broadcast sys.store sid ⟨"session:left", .userIdP uid, none, none⟩ none now
      { sys with
        mgr := r.1,
        store := r.2.1,
        authed := aerase sys.authed ws,
        log := sys.log ++ r.2.2 }
  | none => { sys with mgr := m1 }

/-- One externally visible event of the server's life. -/
inductive Event where
  | conn (ws : ℕ) (sid : String)
  | recv (ws : ℕ) (sid : String) (msg : ClientMsg) (t : ℚ)
  | drop (ws : ℕ) (sid : String) (t : ℚ)

/-- Execute one event: `conn` runs `manager.connect`, `recv` one iteration of
the dispatch loop, `drop` the disconnect path. -/
def stepE (sys : Sys) : Event → Sys
  | .conn ws sid => { sys with mgr := sys.mgr.connect sys.store ws sid }
  | .recv ws sid m t => handleMessage sys ws sid m t
  | .drop ws sid t => onDisconnect sys ws sid t

/-- Execute a list of events in order. -/
def runE (sys : Sys) (es : List Event) : Sys := es.foldl stepE sys

/-- A server with secret "s", 24h token lifetime, an empty enabled store, no
connections. -/
def sys0 : Sys := ⟨⟨"s", 24⟩, Manager.empty, ⟨true, [], [], []⟩, [], []⟩

/-- A token for user A ("Alice"), issued at t = 0. -/
def tokA : Jwt := create_token sys0.cfg 0 "A" "Alice" none false

/-- A token for user B ("Bob"), issued at t = 0. -/
def tokB : Jwt := create_token sys0.cfg 0 "B" "Bob" none false

/-- Shared scenario prelude: clients A (ws 1) and B (ws 2) connect to session
`s1` and authenticate, A at t = 1, B at t = 2. -/
def joinAB : List Event :=
  [.conn 1 "s1", .recv 1 "s1" (.auth (some tokA) none) 1,
   .conn 2 "s1", .recv 2 "s1" (.auth (some tokB) none) 2]

/-- Scenario for C1: after A and B join, A proposes the out-of-bounds value
mu = 0.8. -/
def finC1 : Sys := runE sys0 (joinAB ++ [.recv 1 "s1" (.paramUpdate [("mu", 0.8)]) 3])

/-- Scenario for C2: after A and B join, A proposes mu = 0.6. -/
def finC2 : Sys := runE sys0 (joinAB ++ [.recv 1 "s1" (.paramUpdate [("mu", 0.6)]) 3])

/-- Scenario midpoint for C3/C4: after A and B join, A proposes omega = 1.2 at
t = 10 (accepted). -/
def sysC3mid : Sys := runE sys0 (joinAB ++ [.recv 1 "s1" (.paramUpdate [("omega", 1.2)]) 10])

/-- Scenario for C3: 400 ms after A's own accepted omega update, A proposes
omega = 0.9. -/
def finC3 : Sys := stepE sysC3mid (.recv 1 "s1" (.paramUpdate [("omega", 0.9)]) 10.4)

/-- Scenario for C5/C9 precondition: a single fresh connection to `s1` (the
session is created with default state). -/
def finC5 : Sys := runE sys0 [.conn 1 "s1"]

/-- The `conflicts` list the endpoint accumulates for a `param:update`: one
descriptor per parameter on which `detect_conflict` fires. -/
def conflictsOf (sys : Sys) (sid uid : String) (params : List (String × ℚ)) (now : ℚ) :
    List Conflict :=
  params.filterMap (fun kv => sys.mgr.detect_conflict sid kv.1 kv.2 uid now)

/-- Scenario: A alone joins `s1` and authenticates. -/
def sysSolo : Sys := runE sys0 [.conn 1 "s1", .recv 1 "s1" (.auth (some tokA) none) 1]

/-- Scenario for C6: A joins `s1` and updates mu (persisted at seq 2), B joins
(seq 3, not persisted) and leaves (session:left at seq 4, not persisted), A
leaves (teardown), then a new connection rehydrates the session. -/
def finC6 : Sys := runE sys0
  [.conn 1 "s1", .recv 1 "s1" (.auth (some tokA) none) 1,
   .recv 1 "s1" (.paramUpdate [("mu", 0.6)]) 2,
   .conn 2 "s1", .recv 2 "s1" (.auth (some tokB) none) 3,
   .drop 2 "s1" 4, .drop 1 "s1" 5, .conn 3 "s1"]

/-- Looking up a key just assigned returns the assigned value. -/
theorem aget_aset_self {K V : Type} [DecidableEq K] (l : List (K × V)) (k : K) (v : V) :
    aget (aset l k v) k = some v := by
  induction l with
  | nil => simp [aset, aget]
  | cons p t ih =>
    obtain ⟨k', v'⟩ := p
    by_cases h : k' = k
    · simp [aset, h, aget]
    · simp [aset, h, aget, ih]

/-- Assigning one key does not change lookups of another. -/
theorem aget_aset_ne {K V : Type} [DecidableEq K] (l : List (K × V)) (k k' : K) (v : V)
    (h : k' ≠ k) : aget (aset l k v) k' = aget l k' := by
  have hne : ¬ k = k' := fun hh => h hh.symm
  induction l with
  | nil => simp [aset, aget, hne]
  | cons p t ih =>
    obtain ⟨k0, v0⟩ := p
    by_cases h0 : k0 = k
    · subst h0
      simp [aset, aget, hne]
    · simp [aset, h0, aget, ih]

/-- Looking up an erased key returns nothing. -/
theorem aget_aerase_self {K V : Type} [DecidableEq K] (l : List (K × V)) (k : K) :
    aget (aerase l k) k = none := by
  induction l with
  | nil => rfl
  | cons p t ih =>
    obtain ⟨k0, v0⟩ := p
    by_cases h : k0 = k
    · simpa [aerase, List.filter_cons, h] using ih
    · simpa [aerase, List.filter_cons, h, aget] using ih

/-- `save_session_state` only writes the snapshot key, never history. -/
theorem save_session_state_history (st : Store) (sid : String) (s : SessionState) (q : ℕ) :
    (st.save_session_state sid s q).history = st.history := by
  unfold Store.save_session_state
  split <;> rfl

/-- The state-update block of `broadcast` never touches the sequence counters. -/
theorem applyBroadcastState_seq (m : Manager) (store : Store) (sid : String)
    (msg : OutMsg) (q : ℕ) (now : ℚ) :
    (m.applyBroadcastState store sid msg q now).1.session_seq = m.session_seq := by
  unfold Manager.applyBroadcastState
  by_cases h : msg.type = "param:broadcast"
  · rw [if_pos h]
    cases msg.payload <;> rfl
  · rw [if_neg h]

attribute [local semireducible] Rat.mul Rat.add Rat.sub Rat.inv Rat.ofScientific

/-- Unfolding of `broadcast` on a session that has live connections. -/
theorem broadcast_live (m : Manager) (store : Store) (sid : String) (msg : OutMsg)
    (excl : Option ℕ) (now : ℚ) (conns : List ℕ)
    (h : aget m.active_connections sid = some conns) :
    m.broadcast store sid msg excl now =
      (let seq' := (aget m.session_seq sid).getD 0 + 1
       let m1 : Manager := { m with session_seq := aset m.session_seq sid seq' }
       let msg1 : OutMsg := { msg with seq := some seq', timestamp := some now }
       let ms := m1.applyBroadcastState store sid msg1 seq' now
       (ms.1, ms.2, (conns.filter (fun w => decide (some w ≠ excl))).map (fun w => (w, msg1)))) := by
  unfold Manager.broadcast
  rw [h]

/-- The unconditional-recompute of `beta` leaves the primaries alone and sets
`beta` from them. -/
theorem compute_beta_fields (s : SessionState) :
    (s.compute_beta).mu = s.mu ∧ (s.compute_beta).kappa = s.kappa ∧
      (s.compute_beta).beta = some (1 - s.mu - s.kappa * betaConst) :=
  ⟨rfl, rfl, rfl⟩


/-- C1: the spec requires an out-of-bounds proposal (mu = 0.8 ∉ [0.5, 0.7]) to
be rejected with no state mutation, no seq bump and no broadcast; the code
instead applies it: after A proposes mu = 0.8 the authoritative state holds
mu = 0.8 (beta recomputed from it), the sequence counter was bumped to 3, and
B received the `param:broadcast`.  The model-layer `Field` bounds are bypassed
because `broadcast` mutates by plain attribute assignment, which pydantic does
not validate. -/
theorem c1_out_of_bounds_is_applied :
    aget finC1.mgr.session_state "s1" =
      some ⟨0.8, 0.847, 0.0207, some (-0.02356)⟩ ∧
    aget finC1.mgr.session_seq "s1" = some 3 ∧
    (2, (⟨"param:broadcast", .paramsP "A" [("mu", 0.8)], some 3, some 3⟩ : OutMsg)) ∈
      finC1.log := by
  refine ⟨by decide, by decide, by decide⟩

/-- C2 counterexample: in the literal scenario (A and B join and authenticate,
then A sends mu = 0.6), the unique `param:broadcast` B receives carries
seq = 3, not seq = 1: the two `session:joined` broadcasts emitted during
authentication already bumped the counter to 2. -/
theorem c2_first_broadcast_carries_seq_three :
    finC2.log.filter (fun p => p.2.type == "param:broadcast") =
      [(2, ⟨"param:broadcast", .paramsP "A" [("mu", 0.6)], some 3, some 3⟩)] ∧
    (3 : ℕ) ≠ 1 := by
  refine ⟨by decide, by decide⟩

/-- C2 amended: in the scenario, B receives exactly one `param:broadcast`,
with payload userId = A, params mu = 0.6, and seq = 3 (A receives none —
the filter over the full log returns only the frame addressed to ws 2);
and in general every broadcast on a session with live connections emits
frames carrying exactly the predecessor seq plus one, so consecutive
broadcast sequence numbers differ by exactly 1. -/
theorem c2_broadcast_delivery_and_seq_chain :
    (finC2.log.filter (fun p => p.2.type == "param:broadcast") =
      [(2, ⟨"param:broadcast", .paramsP "A" [("mu", 0.6)], some 3, some 3⟩)]) ∧
    (∀ (m : Manager) (store : Store) (sid : String) (msg : OutMsg) (excl : Option ℕ)
       (now : ℚ) (conns : List ℕ),
      aget m.active_connections sid = some conns →
      aget (m.broadcast store sid msg excl now).1.session_seq sid =
          some ((aget m.session_seq sid).getD 0 + 1) ∧
      ∀ p ∈ (m.broadcast store sid msg excl now).2.2,
        p.2.seq = some ((aget m.session_seq sid).getD 0 + 1)) := by
  constructor
  · decide
  · intro m store sid msg excl now conns h
    rw [broadcast_live m store sid msg excl now conns h]
    constructor
    · rw [applyBroadcastState_seq]
      exact aget_aset_self _ _ _
    · intro p hp
      simp only [List.mem_map] at hp
      obtain ⟨w, _, rfl⟩ := hp
      rfl

/-- Witness for `c2_broadcast_delivery_and_seq_chain`: instantiated on the
one-client session of `finC5`, whose counter is 0, the broadcast bumps it
to 1. -/
theorem c2_broadcast_delivery_and_seq_chain_witness :
    aget ((finC5.mgr.broadcast finC5.store "s1"
        ⟨"pong", .emptyP, none, none⟩ none 7).1).session_seq "s1" =
      some ((aget finC5.mgr.session_seq "s1").getD 0 + 1) :=
  (c2_broadcast_delivery_and_seq_chain.2 finC5.mgr finC5.store "s1"
    ⟨"pong", .emptyP, none, none⟩ none 7 [1] (by decide)).1

/-- C5 counterexample: immediately after a session is created with default
values, the derived field is unset — `beta = None` — rather than equal to
`1 − mu − kappa·10.8` (≈ 0.20746) within 1e-9: `compute_beta` is only ever
called on the `param:broadcast` path, never at construction. -/
theorem c5_beta_unset_at_creation :
    aget finC5.mgr.session_state "s1" = some ⟨0.569, 0.847, 0.0207, none⟩ ∧
    (⟨0.569, 0.847, 0.0207, none⟩ : SessionState).beta = none := by
  refine ⟨by decide, rfl⟩

/-- C5 amended: `compute_beta` always establishes `beta = 1 − mu − kappa·10.8`
exactly (so in particular within 1e-9), and after every `param:broadcast`
applied by `broadcast` on a live session the stored state satisfies that
equation; the invariant holds from the first applied broadcast on, not "at
every instant": on a freshly created session `beta` is unset (`None`), and
hydration restores whatever `beta` the snapshot stored. -/
theorem c5_beta_consistent_after_broadcast :
    (∀ s : SessionState,
      (s.compute_beta).beta = some (1 - (s.compute_beta).mu - (s.compute_beta).kappa * betaConst)) ∧
    (∀ (m : Manager) (store : Store) (sid uid : String) (ps : List (String × ℚ))
       (excl : Option ℕ) (now : ℚ) (conns : List ℕ),
      aget m.active_connections sid = some conns →
      ∃ st : SessionState,
        aget ((m.broadcast store sid
            ⟨"param:broadcast", .paramsP uid ps, none, none⟩ excl now).1).session_state sid =
          some st ∧
        st.beta = some (1 - st.mu - st.kappa * betaConst)) := by
  constructor
  · intro s
    rfl
  · intro m store sid uid ps excl now conns h
    rw [broadcast_live m store sid _ excl now conns h]
    exact ⟨_, aget_aset_self _ _ _, rfl⟩

/-- Witness for `c5_beta_consistent_after_broadcast`: on the live one-client
session of `finC5`, a broadcast of mu = 0.6 leaves a state whose `beta`
satisfies the equation. -/
theorem c5_beta_consistent_after_broadcast_witness :
    ∃ st : SessionState,
      aget ((finC5.mgr.broadcast finC5.store "s1"
          ⟨"param:broadcast", .paramsP "A" [("mu", 0.6)], none, none⟩ none 7).1).session_state "s1" =
        some st ∧
      st.beta = some (1 - st.mu - st.kappa * betaConst) :=
  c5_beta_consistent_after_broadcast.2 finC5.mgr finC5.store "s1" "A" [("mu", 0.6)]
    none 7 [1] (by decide)

/-- C3 counterexample: in `finC3`, participant A made the only update ever to
omega (1.2, accepted at t = 10) and proposes omega = 0.9 400 ms later; the
claim says a participant's own recent update never conflicts with their next
proposal, yet the hub raises `conflict:detected` — and attributes it to B
(`theirUserId = "B"`), who never updated anything: `detect_conflict` records
no updater identity and blames the first other roster member. -/
theorem c3_self_update_conflicts :
    (1, (⟨"conflict:detected", .conflictP ⟨"omega", 0.9, 1.2, "B", "Bob"⟩,
        none, none⟩ : OutMsg)) ∈ finC3.log ∧
    aget finC3.mgr.session_seq "s1" = some 3 := by
  refine ⟨by decide, by decide⟩

/-- C3 amended: a proposal on parameter p raises a conflict exactly when some
accepted update to p — by any participant, the proposer included — lies within
the last 500 ms and the currently stored value differs from the proposed one
by more than 1e-3; the descriptor reports the stored value as `theirValue`,
and `theirUserId` is merely the first other participant in roster order
("unknown" when there is none), not the author of the last update. -/
theorem c3_conflict_characterisation (m : Manager) (sid p : String) (v : ℚ)
    (uid : String) (now : ℚ) :
    ((m.detect_conflict sid p v uid now).isSome ↔
      ∃ lut lastT cv, aget m.last_update_time sid = some lut ∧ aget lut p = some lastT ∧
        now - lastT < 0.5 ∧ ((aget m.session_state sid).getD {}).getattrF p = some cv ∧
        |cv - v| > 0.001) ∧
    (∀ c, m.detect_conflict sid p v uid now = some c →
      c.param = p ∧ c.yourValue = v ∧
      ((aget m.session_state sid).getD {}).getattrF p = some c.theirValue ∧
      c.theirUserId =
        ((firstOther uid ((aget m.session_users sid).getD [])).map User.id).getD "unknown") := by
  unfold Manager.detect_conflict
  cases h1 : aget m.last_update_time sid with
  | none =>
    exact ⟨by simp, fun c hc => Option.noConfusion hc⟩
  | some lut =>
    dsimp only
    cases h2 : aget lut p with
    | none =>
      exact ⟨by simp [h2], fun c hc => Option.noConfusion hc⟩
    | some lastT =>
      dsimp only
      by_cases h3 : now - lastT < 0.5
      · rw [if_pos h3]
        cases h4 : ((aget m.session_state sid).getD {}).getattrF p with
        | none =>
          exact ⟨by simp, fun c hc => Option.noConfusion hc⟩
        | some cv =>
          dsimp only
          by_cases h5 : |cv - v| > 0.001
          · rw [if_pos h5]
            constructor
            · exact ⟨fun _ => ⟨lut, lastT, cv, rfl, h2, h3, rfl, h5⟩, fun _ => rfl⟩
            · intro c hc
              obtain rfl := Option.some.inj hc
              exact ⟨rfl, rfl, rfl, rfl⟩
          · rw [if_neg h5]
            constructor
            · constructor
              · intro hh
                exact absurd hh (by simp)
              · rintro ⟨lut', lastT', cv', _, _, _, hcv, habs⟩
                obtain rfl := Option.some.inj hcv
                exact absurd habs h5
            · intro c hc
              exact Option.noConfusion hc
      · rw [if_neg h3]
        constructor
        · constructor
          · intro hh
            exact absurd hh (by simp)
          · rintro ⟨lut', lastT', cv', hl, ht, hw, _, _⟩
            obtain rfl := Option.some.inj hl
            obtain rfl := Option.some.inj (h2.symm.trans ht)
            exact absurd hw h3
        · intro c hc
          exact Option.noConfusion hc

/-- Witness for `c3_conflict_characterisation`: on the manager of `sysC3mid`
(where omega was updated to 1.2 at t = 10), A's proposal of omega = 0.9 at
t = 10.4 yields a conflict descriptor whose `theirUserId` is the first other
roster member. -/
theorem c3_conflict_characterisation_witness :
    (sysC3mid.mgr.detect_conflict "s1" "omega" 0.9 "A" 10.4).isSome :=
  (c3_conflict_characterisation sysC3mid.mgr "s1" "omega" 0.9 "A" 10.4).1.mpr
    ⟨[("omega", 10)], 10, 1.2, by decide, by decide, by decide, by decide, by decide⟩


/-- C4: when any parameter of a `param:update` conflicts, the handler's only
effect is to send one `conflict:detected` frame per conflicting parameter to
the proposing connection: the manager (state, seq, roster, conflict window),
the store and the authentication map are all left exactly as they were, and
no frame goes to any other connection. -/
theorem c4_conflicted_proposal_atomic_reject (sys : Sys) (ws : ℕ) (sid : String)
    (params : List (String × ℚ)) (now : ℚ) (uid : String)
    (hu : aget sys.authed ws = some uid)
    (hc : conflictsOf sys sid uid params now ≠ []) :
    handleMessage sys ws sid (.paramUpdate params) now =
      { sys with log := sys.log ++ (conflictsOf sys sid uid params now).map (fun c => (ws, ⟨"conflict:detected", .conflictP c, none, none⟩)) } := by
  unfold handleMessage
  rw [hu]
  dsimp only
  rw [if_neg]
  · rfl
  · intro hh
    exact hc (List.isEmpty_iff.mp hh)

/-- Witness for `c4_conflicted_proposal_atomic_reject`: in the `sysC3mid`
scenario, A's conflicting omega proposal changes nothing but the log. -/
theorem c4_conflicted_proposal_atomic_reject_witness :
    handleMessage sysC3mid 1 "s1" (.paramUpdate [("omega", 0.9)]) 10.4 =
      { sysC3mid with log := sysC3mid.log ++ (conflictsOf sysC3mid "s1" "A" [("omega", 0.9)] 10.4).map (fun c => (1, ⟨"conflict:detected", .conflictP c, none, none⟩)) } :=
  c4_conflicted_proposal_atomic_reject sysC3mid 1 "s1" [("omega", 0.9)] 10.4 "A"
    (by decide) (by decide)

/-- C6 counterexample: the rehydrated counter resumes at the persisted value 2
although a broadcast bearing seq 4 had already been emitted before teardown
(`session:left` for B, delivered to A): presence broadcasts bump the live
counter but are never persisted, so the per-session sequence does decrease
across rehydration. -/
theorem c6_seq_decreases_across_rehydration :
    aget finC6.mgr.session_seq "s1" = some 2 ∧
    (1, (⟨"session:left", .userIdP "B", some 4, some 4⟩ : OutMsg)) ∈ finC6.log ∧
    (2 : ℕ) < 4 := by
  refine ⟨by decide, by decide, by decide⟩

/-- C6 amended: on the first join of a session id with no live structures, the
sequence counter is set to the persisted snapshot's seq when a snapshot
exists and to 0 otherwise; this equals the seq of the last *persisted*
parameter broadcast, which can be below the last live seq, because presence
broadcasts emitted after the last parameter update are not written through. -/
theorem c6_first_join_resumes_persisted_seq (m : Manager) (store : Store) (ws : ℕ)
    (sid : String) (h : aget m.active_connections sid = none) :
    aget (m.connect store ws sid).session_seq sid =
      some ((store.load_session_state sid).elim 0 Snapshot.seq) := by
  unfold Manager.connect
  rw [h]
  cases hl : store.load_session_state sid with
  | none => simp [aget_aset_self]
  | some sn => simp [aget_aset_self]

/-- Witness for `c6_first_join_resumes_persisted_seq`: joining `s1` on a fresh
manager against the (empty) store of `sys0` starts the counter at 0. -/
theorem c6_first_join_resumes_persisted_seq_witness :
    aget (Manager.empty.connect sys0.store 1 "s1").session_seq "s1" =
      some ((sys0.store.load_session_state "s1").elim 0 Snapshot.seq) :=
  c6_first_join_resumes_persisted_seq Manager.empty sys0.store 1 "s1" (by decide)

/-- C7: a `session:resync` request only appends one `session:state` frame,
addressed to the requesting connection, to the log — manager (so state and
seq), store and authentication map are untouched — and the snapshot it carries
is the stored session state paired with the hub's current seq. -/
theorem c7_resync_pure_snapshot (sys : Sys) (ws : ℕ) (sid : String) (n : ℕ) (now : ℚ) :
    handleMessage sys ws sid (.resync n) now =
      { sys with log := sys.log ++ [(ws, ⟨"session:state", .stateP (sys.mgr.get_session_state sid).1 (sys.mgr.get_session_state sid).2, none, none⟩)] } ∧
    (∀ st, aget sys.mgr.session_state sid = some st →
      sys.mgr.get_session_state sid = (st, (aget sys.mgr.session_seq sid).getD 0)) := by
  constructor
  · rfl
  · intro st h
    unfold Manager.get_session_state
    rw [h]

/-- Witness for `c7_resync_pure_snapshot`: on the live session of `finC5` the
resync snapshot is the default state paired with the current counter. -/
theorem c7_resync_pure_snapshot_witness :
    finC5.mgr.get_session_state "s1" =
      (⟨0.569, 0.847, 0.0207, none⟩, (aget finC5.mgr.session_seq "s1").getD 0) :=
  (c7_resync_pure_snapshot finC5 1 "s1" 0 6).2 ⟨0.569, 0.847, 0.0207, none⟩ (by decide)

/-- C8: verifying a token the service itself issued, before its lifetime of
`expiration_hours` hours has elapsed, returns exactly the principal's identity
claims — user id, display name, email, anonymous flag (and the expiry the
token was minted with). -/
theorem c8_verify_issue_roundtrip (cfg : AuthConfig) (t0 now : ℚ) (uid uname : String)
    (email : Option String) (anon : Bool)
    (h : now < t0 + (cfg.expiration_hours : ℚ) * 3600) :
    verify_token cfg now (create_token cfg t0 uid uname email anon) =
      some ⟨uid, uname, email, anon, t0 + (cfg.expiration_hours : ℚ) * 3600⟩ := by
  unfold verify_token create_token
  rw [if_pos]
  exact ⟨rfl, h⟩

/-- Witness for `c8_verify_issue_roundtrip`: A's token of `sys0`, verified one
second after issuance. -/
theorem c8_verify_issue_roundtrip_witness :
    verify_token sys0.cfg 1 (create_token sys0.cfg 0 "A" "Alice" none false) =
      some ⟨"A", "Alice", none, false, 0 + (sys0.cfg.expiration_hours : ℚ) * 3600⟩ :=
  c8_verify_issue_roundtrip sys0.cfg 0 1 "A" "Alice" none false (by decide)

/-- C10: broadcasting to a session id with no live connections is a complete
no-op — manager, store and send list are returned unchanged/empty, so there is
no seq increment, no state mutation, no store write and no frame; in
particular, when the last participant of a session disconnects, the
`session:left` broadcast of the teardown path sends nothing and changes
nothing (the log and store are exactly as before, and the session's live
structures are gone). -/
theorem c10_broadcast_without_connections_noop :
    (∀ (m : Manager) (store : Store) (sid : String) (msg : OutMsg) (excl : Option ℕ) (now : ℚ),
      aget m.active_connections sid = none →
      m.broadcast store sid msg excl now = (m, store, [])) ∧
    (∀ (sys : Sys) (ws : ℕ) (sid : String) (now : ℚ) (uid : String),
      aget sys.mgr.active_connections sid = some [ws] →
      aget sys.authed ws = some uid →
      (onDisconnect sys ws sid now).mgr = sys.mgr.disconnect ws sid ∧
      (onDisconnect sys ws sid now).store = sys.store ∧
      (onDisconnect sys ws sid now).log = sys.log ∧
      aget (onDisconnect sys ws sid now).mgr.active_connections sid = none) := by
  have hb : ∀ (m : Manager) (store : Store) (sid : String) (msg : OutMsg)
      (excl : Option ℕ) (now : ℚ), aget m.active_connections sid = none →
      m.broadcast store sid msg excl now = (m, store, []) := by
    intro m store sid msg excl now h
    unfold Manager.broadcast
    rw [h]
  have hd : ∀ (m : Manager) (ws : ℕ) (sid : String),
      aget m.active_connections sid = some [ws] →
      aget (m.disconnect ws sid).active_connections sid = none := by
    intro m ws sid h
    unfold Manager.disconnect
    rw [h]
    have hf : ([ws].filter (fun w => decide (w ≠ ws))) = [] := by simp
    dsimp only
    rw [hf]
    exact aget_aerase_self _ _
  refine ⟨hb, ?_⟩
  intro sys ws sid now uid h hu
  have hnone := hd sys.mgr ws sid h
  unfold onDisconnect
  rw [hu]
  dsimp only
  rw [hb _ _ _ _ _ _ hnone]
  exact ⟨rfl, rfl, by simp, hnone⟩

/-- Witness for `c10_broadcast_without_connections_noop`: A is the only
participant of `sysSolo`; their disconnect tears the session down and the
trailing `session:left` broadcast emits nothing. -/
theorem c10_broadcast_without_connections_noop_witness :
    (onDisconnect sysSolo 1 "s1" 9).log = sysSolo.log ∧
    aget (onDisconnect sysSolo 1 "s1" 9).mgr.active_connections "s1" = none :=
  ⟨(c10_broadcast_without_connections_noop.2 sysSolo 1 "s1" 9 "A" (by decide) (by decide)).2.2.1,
   (c10_broadcast_without_connections_noop.2 sysSolo 1 "s1" 9 "A" (by decide) (by decide)).2.2.2⟩
